import Mathlib

/-!
Verification development for the `gaslift` ERC-4337 bundler.

The TypeScript sources under `packages/bundler/src` are shallowly embedded
as pure Lean functions.  Stateful services (the relational store behind
TypeORM repositories and the Redis key-value cache) are modelled as
explicit state records threaded through the functions; `async` methods
that can `throw` return `Except`.  256-bit `BigNumber` arithmetic is
modelled by `Nat` (ethers `BigNumber` is arbitrary precision and the
values involved come from unsigned fields); the only overflow point in
the sources, `BigNumber.toNumber()`, is modelled explicitly at the
JavaScript safe-integer bound.
-/

deriving instance DecidableEq for Except

namespace Gaslift

/-- Status column of the `user_operations` table.  The entity enum in
`db/entities/UserOperation.ts` has `pending | submitted | confirmed |
failed`; `removed` is the value `MempoolService.removeUserOperation`
attempts to write. -/
inductive OpStatus where
  | pending
  | submitted
  | confirmed
  | failed
  | removed
deriving DecidableEq, Repr

/-- Status column of the `bundles` table (`db/entities/Bundle.ts`). -/
inductive BundleStatus where
  | pending
  | submitted
  | confirmed
  | failed
deriving DecidableEq, Repr

/-- A `UserOperationStruct` as received by the mempool
(`@account-abstraction` v0.6 shape).  Addresses and byte strings are
`String` (0x-prefixed hex), numeric 256-bit fields are `Nat`. -/
structure UserOp where
  sender : String
  nonce : Nat
  initCode : String
  callData : String
  callGasLimit : Nat
  verificationGasLimit : Nat
  preVerificationGas : Nat
  maxFeePerGas : Nat
  maxPriorityFeePerGas : Nat
  paymasterAndData : String
  signature : String
deriving DecidableEq, Repr

/-- A row of the `user_operations` table (`db/entities/UserOperation.ts`).
`id` is the TypeORM `@PrimaryGeneratedColumn('uuid')` primary key, which
is distinct from the `hash` column. -/
structure UserOpRow where
  id : String
  hash : String
  op : UserOp
  status : OpStatus
  submittedAt : Nat
  bundleId : Option String
  transactionHash : Option String
  blockNumber : Option Nat
  error : Option String
deriving DecidableEq, Repr

/-- A row of the `bundles` table (`db/entities/Bundle.ts`). -/
structure BundleRow where
  id : String
  status : BundleStatus
  submittedAt : Nat
  transactionHash : Option String
  blockNumber : Option Nat
  error : Option String
deriving DecidableEq, Repr

/-- The Redis keyspaces used by `MempoolService`: the `mempool:<hash>`
keys (cached serialized rows) and the `sender_nonce:<sender>:<nonce>`
index keys (pointing at a hash).  The two key prefixes are distinct
strings in the source, so the single keyspace splits into two
association lists. -/
structure Cache where
  mem : List (String × UserOpRow)
  senderNonce : List (String × String)
deriving DecidableEq, Repr

/-- Combined state seen by `MempoolService`: the durable
`user_operations` table plus the Redis cache. -/
structure MempoolState where
  db : List UserOpRow
  cache : Cache
deriving DecidableEq, Repr

/-- Redis `SET` on an association list: overwrite any previous binding. -/
def kvSet {α : Type} (l : List (String × α)) (k : String) (v : α) : List (String × α) :=
  (k, v) :: l.filter (fun kv => kv.1 != k)

/-- Redis `DEL` on an association list. -/
def kvDel {α : Type} (l : List (String × α)) (k : String) : List (String × α) :=
  l.filter (fun kv => kv.1 != k)

/-- `MempoolService.getUserOperationHash`: keccak256 of the ABI encoding
of (sender, nonce, keccak(initCode), keccak(callData), callGasLimit,
verificationGasLimit, preVerificationGas, maxFeePerGas,
maxPriorityFeePerGas, keccak(paymasterAndData)).  keccak256 is modelled
as an injective encoding: the ten encoded fields joined with separators.
The properties used of it are exactly determinism in the fields and
distinctness for fields that differ, which hold of keccak in practice. -/
def getUserOperationHash (userOp : UserOp) : String :=
  "0xhash(" ++ userOp.sender ++ "|" ++ Nat.repr userOp.nonce ++ "|" ++
    userOp.initCode ++ "|" ++ userOp.callData ++ "|" ++
    Nat.repr userOp.callGasLimit ++ "|" ++ Nat.repr userOp.verificationGasLimit ++ "|" ++
    Nat.repr userOp.preVerificationGas ++ "|" ++ Nat.repr userOp.maxFeePerGas ++ "|" ++
    Nat.repr userOp.maxPriorityFeePerGas ++ "|" ++ userOp.paymasterAndData ++ ")"

/-- `UserOperationRepository.findByHash`. -/
def findByHash (rows : List UserOpRow) (h : String) : Option UserOpRow :=
  rows.find? (fun r => r.hash == h)

/-- `BaseRepository.update` specialised to `user_operations`: TypeORM
`repository.update(id, data)` updates the rows whose *primary key* `id`
equals the criteria string. -/
def updateUserOpById (rows : List UserOpRow) (i : String)
    (f : UserOpRow → UserOpRow) : List UserOpRow :=
  rows.map (fun r => if r.id == i then f r else r)

/-- `repository.update(ids, data)` with a list criteria (used by
`UserOperationRepository.updateStatus` / `markAsFailed`). -/
def updateUserOpsByIds (rows : List UserOpRow) (ids : List String)
    (f : UserOpRow → UserOpRow) : List UserOpRow :=
  rows.map (fun r => if ids.contains r.id then f r else r)

/-- The `sender_nonce:` cache key body:
`` `${userOp.sender}:${userOp.nonce}` ``. -/
def senderNonceKey (sender : String) (nonce : Nat) : String :=
  sender ++ ":" ++ Nat.repr nonce

/-- `MempoolService.getUserOperation`: Redis `mempool:<hash>` first, then
fall back to `userOpRepo.findByHash`. -/
def getUserOperation (s : MempoolState) (userOpHash : String) : Option UserOpRow :=
  match s.cache.mem.lookup userOpHash with
  | some cachedOp => some cachedOp
  | none => findByHash s.db userOpHash

/-- `MempoolService.getMempoolSize`: the number of `mempool:*` keys. -/
def getMempoolSize (s : MempoolState) : Nat :=
  s.cache.mem.length

/-- `MempoolService.removeFromMempool`: look the op up (cache, then
database), return `false` if absent, otherwise `DEL` both cache keys. -/
def removeFromMempool (s : MempoolState) (userOpHash : String) : Bool × MempoolState :=
  match getUserOperation s userOpHash with
  | none => (false, s)
  | some userOp =>
    let mem1 := kvDel s.cache.mem userOpHash
    let sn1 := kvDel s.cache.senderNonce (senderNonceKey userOp.op.sender userOp.op.nonce)
    (true, { s with cache := { mem := mem1, senderNonce := sn1 } })

/-- `MempoolService.removeUserOperation`: remove from Redis; if that
returned `true`, run `userOpRepo.update(userOpHash, { status:
'removed' })`.  The repository's `update` keys on the primary-key `id`,
and it is handed the *hash* — exactly as in the source. -/
def removeUserOperation (s : MempoolState) (userOpHash : String) : Bool × MempoolState :=
  let (removed, s1) := removeFromMempool s userOpHash
  if removed then
    let db1 := updateUserOpById s1.db userOpHash (fun r => { r with status := .removed })
    (true, { s1 with db := db1 })
  else
    (false, s1)

/-- `MempoolService.validateReplaceUserOp`: same (sender, nonce); the
candidate's `maxPriorityFeePerGas` must be at least the incumbent's
multiplied by 110 then divided by 100 (integer `BigNumber` arithmetic);
the candidate's `maxFeePerGas` must not be lower.  If all checks pass the
incumbent is removed via `removeUserOperation`. -/
def validateReplaceUserOp (s : MempoolState) (oldOp newOp : UserOp) :
    Bool × MempoolState :=
  if oldOp.sender != newOp.sender || oldOp.nonce != newOp.nonce then
    (false, s)
  else
    let oldOpHash := getUserOperationHash oldOp
    let minNewMaxPriorityFee := oldOp.maxPriorityFeePerGas * 110 / 100
    if newOp.maxPriorityFeePerGas < minNewMaxPriorityFee then
      (false, s)
    else if newOp.maxFeePerGas < oldOp.maxFeePerGas then
      (false, s)
    else
      let (_, s1) := removeUserOperation s oldOpHash
      (true, s1)

/-- `ethers.utils.isAddress` for the 0x-prefixed lowercase-hex addresses
this service handles (the mixed-case checksum branch of ethers is not
exercised by any lowercase input): `0x` followed by exactly 40 hex
characters. -/
def isAddress (a : String) : Bool :=
  match a.toList with
  | '0' :: 'x' :: rest =>
    rest.length == 40 && rest.all (fun c => c.isDigit || ('a' ≤ c && c ≤ 'f'))
  | _ => false

/-- `MempoolService.validateUserOperation`.  `simulationOk` stands for
the outcome of `entryPointService.simulateValidation` (an external EVM
call).  Errors carry the state as it stands when the exception is
thrown, since replacement side effects performed before the throw
persist. -/
def validateUserOperation (s : MempoolState) (userOp : UserOp)
    (simulationOk : Bool) : Except (String × MempoolState) MempoolState :=
  if !(isAddress userOp.sender) then
    .error ("Invalid sender address: " ++ userOp.sender, s)
  else if userOp.nonce == 0 then
    -- `if (!userOp.nonce)` on a numeric nonce: zero is falsy
    .error ("Nonce is required", s)
  else if getMempoolSize s ≥ 1000 then
    .error ("Mempool is full", s)
  else
    match s.cache.senderNonce.lookup (senderNonceKey userOp.sender userOp.nonce) with
    | some existingOpHash =>
      match getUserOperation s existingOpHash with
      | some existingOp =>
        let (canReplace, s1) := validateReplaceUserOp s existingOp.op userOp
        if !canReplace then
          .error ("Conflicting user operation with nonce " ++ Nat.repr userOp.nonce ++
            " for sender " ++ userOp.sender, s1)
        else if simulationOk then .ok s1
        else .error ("User operation validation failed", s1)
      | none =>
        if simulationOk then .ok s
        else .error ("User operation validation failed", s)
    | none =>
      if simulationOk then .ok s
      else .error ("User operation validation failed", s)

/-- `MempoolService.addToMempool`: pipeline of two Redis `SET`s with the
mempool TTL. -/
def addToMempool (s : MempoolState) (userOp : UserOpRow) : MempoolState :=
  let mem1 := kvSet s.cache.mem userOp.hash userOp
  let sn1 := kvSet s.cache.senderNonce (senderNonceKey userOp.op.sender userOp.op.nonce) userOp.hash
  { s with cache := { mem := mem1, senderNonce := sn1 } }

/-- `MempoolService.addUserOperation`: compute the hash; return the
existing durable record if one carries this hash (idempotent admission);
otherwise validate, insert a `pending` row and cache it.  `newId` is the
uuid the database generates for the new row and `now` the insertion
timestamp. -/
def addUserOperation (s : MempoolState) (userOp : UserOp) (simulationOk : Bool)
    (newId : String) (now : Nat) :
    Except (String × MempoolState) (UserOpRow × MempoolState) :=
  let userOpHash := getUserOperationHash userOp
  match findByHash s.db userOpHash with
  | some existingOp => .ok (existingOp, s)
  | none =>
    match validateUserOperation s userOp simulationOk with
    | .error e => .error e
    | .ok s1 =>
      let savedOp : UserOpRow :=
        { id := newId, hash := userOpHash, op := userOp, status := .pending,
          submittedAt := now, bundleId := none, transactionHash := none,
          blockNumber := none, error := none }
      let s2 : MempoolState := { s1 with db := s1.db ++ [savedOp] }
      .ok (savedOp, addToMempool s2 savedOp)

/-! ### Supporting lemmas about the mempool state functions -/

/-- `updateUserOpById` never changes the `hash` column when the payload
only touches `status`, so a hash absent before stays absent. -/
theorem findByHash_updateUserOpById_none {rows : List UserOpRow} {h0 : String}
    (i : String) (h : findByHash rows h0 = none) :
    findByHash (updateUserOpById rows i (fun r => { r with status := .removed })) h0 = none := by
  simp only [findByHash, List.find?_eq_none, updateUserOpById, List.mem_map] at h ⊢
  rintro x ⟨y, hy, rfl⟩
  have := h y hy
  split <;> simpa using this

/-- `removeFromMempool` never touches the durable store. -/
theorem removeFromMempool_db (s : MempoolState) (hh : String) :
    ((removeFromMempool s hh).2).db = s.db := by
  unfold removeFromMempool
  cases getUserOperation s hh <;> rfl

/-- `removeUserOperation` only rewrites a `status` column, so a hash
absent from the durable store stays absent. -/
theorem removeUserOperation_findByHash_none (s : MempoolState) (hh h0 : String)
    (h : findByHash s.db h0 = none) :
    findByHash ((removeUserOperation s hh).2).db h0 = none := by
  unfold removeUserOperation
  have hdb := removeFromMempool_db s hh
  cases hrm : removeFromMempool s hh with
  | mk removed s1 =>
    simp only [hrm] at hdb
    by_cases hr : removed = true
    · subst hr
      simpa using findByHash_updateUserOpById_none hh (hdb ▸ h)
    · simp only [Bool.not_eq_true] at hr
      subst hr
      simpa using hdb ▸ h

/-- `validateReplaceUserOp` only rewrites a `status` column in the
durable store. -/
theorem validateReplaceUserOp_findByHash_none (s : MempoolState) (oldOp newOp : UserOp)
    (h0 : String) (h : findByHash s.db h0 = none) :
    findByHash ((validateReplaceUserOp s oldOp newOp).2).db h0 = none := by
  have hrem := removeUserOperation_findByHash_none s (getUserOperationHash oldOp) h0 h
  unfold validateReplaceUserOp
  cases hrm : removeUserOperation s (getUserOperationHash oldOp) with
  | mk a b =>
    rw [hrm] at hrem
    simp only [hrm]
    split
    · simpa using h
    · split
      · simpa using h
      · split
        · simpa using h
        · simpa using hrem

/-- A successful `validateUserOperation` run only ever rewrites `status`
columns (through a possible replacement), so a hash absent from the
durable store stays absent. -/
theorem validateUserOperation_ok_findByHash_none {s s' : MempoolState} {userOp : UserOp}
    {simulationOk : Bool} {h0 : String}
    (hv : validateUserOperation s userOp simulationOk = .ok s')
    (h : findByHash s.db h0 = none) :
    findByHash s'.db h0 = none := by
  unfold validateUserOperation at hv
  split at hv
  · exact absurd hv (by simp)
  split at hv
  · exact absurd hv (by simp)
  split at hv
  · exact absurd hv (by simp)
  split at hv
  · next existingOpHash heq1 =>
      split at hv
      · next existingOp heq2 =>
          split at hv
          next canReplace s1 heq3 =>
            split at hv
            · exact absurd hv (by simp)
            · split at hv
              · cases hv
                have h1 := validateReplaceUserOp_findByHash_none s existingOp.op userOp h0 h
                rw [heq3] at h1
                exact h1
              · exact absurd hv (by simp)
      · next heq2 =>
          split at hv
          · cases hv; exact h
          · exact absurd hv (by simp)
  · next heq1 =>
      split at hv
      · cases hv; exact h
      · exact absurd hv (by simp)

/-! ### Concrete admission scenario used by several claims -/

/-- The empty dual store. -/
def mempoolEmpty : MempoolState := { db := [], cache := { mem := [], senderNonce := [] } }

/-- A valid 20-byte lowercase-hex sender address. -/
def addrA : String := "0xaaaaaaaaaaaaaaaaaaaaaaaaaaaaaaaaaaaaaaaa"

/-- Incumbent user operation: (sender `addrA`, nonce 1),
`maxPriorityFeePerGas` 99, `maxFeePerGas` 100. -/
def opA : UserOp :=
  { sender := addrA, nonce := 1, initCode := "0x", callData := "0x",
    callGasLimit := 1000, verificationGasLimit := 2000, preVerificationGas := 100,
    maxFeePerGas := 100, maxPriorityFeePerGas := 99,
    paymasterAndData := "0x", signature := "0xsig" }

/-- Fee-bumped candidate: priority fee 108 = ⌊99 × 110 / 100⌋, the least
acceptable bump under multiply-first integer arithmetic. -/
def opB : UserOp := { opA with maxPriorityFeePerGas := 108 }

/-- Underpriced candidate: priority fee 107 < ⌊99 × 110 / 100⌋. -/
def opC : UserOp := { opA with maxPriorityFeePerGas := 107 }

/-- Hash of the incumbent. -/
def hashA : String := getUserOperationHash opA

/-- State after admitting the incumbent `opA` (uuid `id-1`, time 0). -/
def st1 : MempoolState :=
  match addUserOperation mempoolEmpty opA true "id-1" 0 with
  | .ok (_, s) => s
  | .error (_, s) => s

/-- State after then admitting the fee-bumped candidate `opB`
(uuid `id-2`, time 1). -/
def st2 : MempoolState :=
  match addUserOperation st1 opB true "id-2" 1 with
  | .ok (_, s) => s
  | .error (_, s) => s

/-- C1 (code bug): fee-bump replacement.  On the concrete incumbent
`opA` admitted as row `id-1`: the candidate `opB` with priority fee
108 = ⌊99·110/100⌋ is admitted and the incumbent is evicted from the
cache (both keys), but the incumbent's durable row is NOT marked
`removed` — it stays `pending`, because `removeUserOperation` hands the
hash to `userOpRepo.update`, which keys on the uuid primary key.  The
underpriced candidate `opC` with priority fee 107 is rejected with the
conflict error, leaving the incumbent fully intact. -/
theorem C1_feeBump_replacement_code_behavior :
    addUserOperation st1 opB true "id-2" 1 =
      .ok (⟨"id-2", getUserOperationHash opB, opB, .pending, 1, none, none, none, none⟩, st2) ∧
    st2.cache.mem.lookup hashA = none ∧
    st2.cache.senderNonce.lookup (senderNonceKey addrA 1) = some (getUserOperationHash opB) ∧
    (findByHash st2.db hashA).map (fun r => r.status) = some OpStatus.pending ∧
    addUserOperation st1 opC true "id-3" 2 =
      .error ("Conflicting user operation with nonce 1 for sender " ++ addrA, st1) := by
  decide

/-- C2: idempotent admission.  If the durable store has no row with the
op's hash and a first admission succeeds, a second admission of the same
op returns the very same record and leaves the entire state unchanged —
regardless of the second call's simulation outcome, i.e. without
validating, inserting or caching again — and the durable store holds
exactly one row with that hash. -/
theorem C2_idempotent_admission (s : MempoolState) (userOp : UserOp)
    (simOk simOk2 : Bool) (i i2 : String) (t t2 : Nat)
    (r : UserOpRow) (s1 : MempoolState)
    (hfresh : findByHash s.db (getUserOperationHash userOp) = none)
    (h1 : addUserOperation s userOp simOk i t = .ok (r, s1)) :
    addUserOperation s1 userOp simOk2 i2 t2 = .ok (r, s1) ∧
    r.hash = getUserOperationHash userOp ∧
    (s1.db.filter (fun x => x.hash == getUserOperationHash userOp)).length = 1 := by
  unfold addUserOperation at h1
  simp only [hfresh] at h1
  cases hv : validateUserOperation s userOp simOk with
  | error e => rw [hv] at h1; exact absurd h1 (by simp)
  | ok sv =>
    rw [hv] at h1
    simp only [Except.ok.injEq, Prod.mk.injEq] at h1
    obtain ⟨hr, hs1⟩ := h1
    have hnone : findByHash sv.db (getUserOperationHash userOp) = none :=
      validateUserOperation_ok_findByHash_none hv hfresh
    subst hs1
    rw [hr]
    have hdb : ((addToMempool { sv with db := sv.db ++ [r] } r).db) = sv.db ++ [r] := rfl
    have hrhash : r.hash = getUserOperationHash userOp := by rw [← hr]
    have hfind1 : findByHash (addToMempool { sv with db := sv.db ++ [r] } r).db
        (getUserOperationHash userOp) = some r := by
      rw [hdb]
      unfold findByHash at hnone ⊢
      rw [List.find?_append, hnone]
      simp [hrhash]
    refine ⟨?_, ?_, ?_⟩
    · unfold addUserOperation
      simp only [hfind1]
    · exact hrhash
    · rw [hdb, List.filter_append]
      have hempty : sv.db.filter (fun x => x.hash == getUserOperationHash userOp) = [] := by
        rw [List.filter_eq_nil_iff]
        intro a ha
        have := List.find?_eq_none.mp hnone a ha
        simpa using this
      rw [hempty]
      simp [hrhash]

/-- Witness for C2 at the concrete scenario: admit `opA` into the empty
store, then admit it again. -/
theorem C2_idempotent_admission_witness :
    addUserOperation st1 opA false "id-9" 99 =
      .ok (⟨"id-1", hashA, opA, .pending, 0, none, none, none, none⟩, st1) ∧
    (st1.db.filter (fun x => x.hash == getUserOperationHash opA)).length = 1 := by
  have h := C2_idempotent_admission mempoolEmpty opA true false "id-1" "id-9" 0 99
    ⟨"id-1", hashA, opA, .pending, 0, none, none, none, none⟩ st1
    (by decide) (by decide)
  exact ⟨h.1, h.2.2⟩

/-- C3 (code bug): removal by hash.  After admitting `opA` (durable row
`id-1`), `removeUserOperation hashA` returns `true` and deletes both
cache keys, but the durable row keeps status `pending`: the update is
keyed on the uuid primary key while being handed the hash.  On a store
that has never seen the hash, removal returns `false` and changes
nothing. -/
theorem C3_removeUserOperation_code_behavior :
    (removeUserOperation st1 hashA).1 = true ∧
    ((removeUserOperation st1 hashA).2).cache.mem.lookup hashA = none ∧
    ((removeUserOperation st1 hashA).2).cache.senderNonce.lookup (senderNonceKey addrA 1) = none ∧
    ((removeUserOperation st1 hashA).2).db.map (fun r => (r.id, r.status)) =
      [("id-1", OpStatus.pending)] ∧
    removeUserOperation mempoolEmpty hashA = (false, mempoolEmpty) := by
  decide

/-! ### BundlerService and EntryPointService: gas estimation and submission -/

/-- `MAX_BUNDLE_GAS_LIMIT` in `BundlerService.ts`. -/
def MAX_BUNDLE_GAS_LIMIT : Nat := 10000000

/-- JavaScript `Number.MAX_SAFE_INTEGER` = 2^53 − 1: the largest value
for which ethers `BigNumber.toNumber()` succeeds instead of throwing an
overflow error. -/
def MAX_SAFE_INTEGER : Nat := 9007199254740991

/-- `BundlerService.estimateBundleGas`: sum `verificationGasLimit +
callGasLimit` over the ops, add 21000 per op, then
`Math.min(totalGas.toNumber(), MAX_BUNDLE_GAS_LIMIT)`.  The
`toNumber()` call throws `overflow` when the accumulated `BigNumber`
exceeds the JavaScript safe-integer bound, which the `Except` models. -/
def estimateBundleGas (userOps : List UserOp) : Except String Nat :=
  let totalGas := userOps.foldl (fun t op => t + op.verificationGasLimit + op.callGasLimit) 0
  let totalGas := totalGas + 21000 * userOps.length
  if totalGas > MAX_SAFE_INTEGER then .error "overflow"
  else .ok (min totalGas MAX_BUNDLE_GAS_LIMIT)

/-- Twice `EntryPointService.estimateCalldataSize(op)`: the source sums
the `.toString().length` of every field and divides by 2 as an exact
binary float; `calculateGasLimit` multiplies that by `GAS_PER_BYTE =
16`, so only the doubled sum is needed as an integer. -/
def estimateCalldataSizeNum (op : UserOp) : Nat :=
  op.sender.length + (Nat.repr op.nonce).length +
  op.initCode.length + op.callData.length +
  (Nat.repr op.callGasLimit).length + (Nat.repr op.verificationGasLimit).length +
  (Nat.repr op.preVerificationGas).length + (Nat.repr op.maxFeePerGas).length +
  (Nat.repr op.maxPriorityFeePerGas).length +
  op.paymasterAndData.length + op.signature.length

/-- `EntryPointService.calculateGasLimit`:
`(ops.length × BASE_GAS_PER_OP + totalCalldataSize × GAS_PER_BYTE) × 12
/ 10` with `BASE_GAS_PER_OP = 100000` and `GAS_PER_BYTE = 16`;
`totalCalldataSize × 16 = 8 ×` the doubled sums. -/
def calculateGasLimit (ops : List UserOp) : Nat :=
  (ops.length * 100000 + 8 * ops.foldl (fun t op => t + estimateCalldataSizeNum op) 0) * 12 / 10

/-- The transaction request the adapter hands to
`this.contract.handleOps(ops, beneficiary, { gasLimit })`: only a
`gasLimit` option is set; no fee fields are ever passed. -/
structure TxRequest where
  ops : List UserOp
  beneficiary : String
  gasLimit : Nat
  maxFeePerGas : Option Nat
  maxPriorityFeePerGas : Option Nat
deriving DecidableEq, Repr

/-- `EntryPointService.handleOps(ops, beneficiary)`: the adapter's
method takes exactly two parameters and submits with its own
`calculateGasLimit(ops)`; the third argument a caller may supply does
not exist in this signature and is discarded at the JavaScript call
site. -/
def entryPointHandleOps (ops : List UserOp) (beneficiary : String) : TxRequest :=
  { ops := ops, beneficiary := beneficiary, gasLimit := calculateGasLimit ops,
    maxFeePerGas := none, maxPriorityFeePerGas := none }

/-- `provider.getFeeData()` result (either field may be `null`). -/
structure FeeData where
  maxFeePerGas : Option Nat
  maxPriorityFeePerGas : Option Nat
deriving DecidableEq, Repr

/-- The overrides object `BundlerService.submitBundle` builds and passes
as third argument to `entryPointService.handleOps`. -/
structure HandleOpsOverrides where
  maxFeePerGas : Nat
  maxPriorityFeePerGas : Nat
  gasLimit : Nat
deriving DecidableEq, Repr

/-- `BundlerService.submitBundle`: estimate the bundle gas, fetch fee
data, bump both fees by ×120/100, and call
`entryPointService.handleOps(userOps, beneficiary, overrides)` with
`overrides.gasLimit = gasEstimate × 12 / 10`.  The returned pair is
(the overrides object passed, the transaction request the adapter
actually submits). -/
def submitBundle (userOps : List UserOp) (beneficiary : String) (feeData : FeeData) :
    Except String (HandleOpsOverrides × TxRequest) :=
  match estimateBundleGas userOps with
  | .error e => .error e
  | .ok gasEstimate =>
    match feeData.maxFeePerGas, feeData.maxPriorityFeePerGas with
    | some mf, some mp =>
      let maxPriorityFeePerGas := mp * 120 / 100
      let maxFeePerGas := mf * 120 / 100
      let ov : HandleOpsOverrides :=
        { maxFeePerGas := maxFeePerGas, maxPriorityFeePerGas := maxPriorityFeePerGas,
          gasLimit := gasEstimate * 12 / 10 }
      .ok (ov, entryPointHandleOps userOps beneficiary)
    | _, _ => .error "Failed to get gas price data"

/-- The spec's bundle-gas formula: `Σ (verificationGasLimit +
callGasLimit) + 21000 × |ops|`. -/
def bundleGasTotal (userOps : List UserOp) : Nat :=
  (userOps.map (fun op => op.verificationGasLimit + op.callGasLimit)).sum + 21000 * userOps.length

theorem foldl_gas_eq (l : List UserOp) (a : Nat) :
    l.foldl (fun t op => t + op.verificationGasLimit + op.callGasLimit) a =
      a + (l.map (fun op => op.verificationGasLimit + op.callGasLimit)).sum := by
  induction l generalizing a with
  | nil => simp
  | cons x xs ih => simp [ih]; ring

/-- A beneficiary address for the concrete submission scenarios. -/
def addrB : String := "0xbbbbbbbbbbbbbbbbbbbbbbbbbbbbbbbbbbbbbbbb"

/-- C6 counterexample: the claim says the adapter accepts the overrides
struct and applies it to the submitted transaction.  On the concrete
bundle `[opA]` with fee data (100, 50), the bundler passes overrides
(120, 60, gasLimit 28800), but the submitted transaction carries the
adapter's own `calculateGasLimit` value 120672 and no fee overrides at
all. -/
theorem C6_overrides_counterexample :
    submitBundle [opA] addrB { maxFeePerGas := some 100, maxPriorityFeePerGas := some 50 } =
      .ok ({ maxFeePerGas := 120, maxPriorityFeePerGas := 60, gasLimit := 28800 },
        { ops := [opA], beneficiary := addrB, gasLimit := 120672,
          maxFeePerGas := none, maxPriorityFeePerGas := none }) ∧
    (120672 : Nat) ≠ 28800 := by
  decide

/-- C6 (amended): for every op list and complete fee data the bundler
computes the +20% fee bump on both fees and the +20% buffer on the
estimated gas and passes them to `handleOps` as an overrides struct, but
the adapter's two-parameter `handleOps` ignores the overrides: the
submitted transaction uses `calculateGasLimit(ops)` and carries no fee
fields. -/
theorem C6_submitBundle_overrides_ignored (userOps : List UserOp) (beneficiary : String)
    (mf mp g : Nat) (hg : estimateBundleGas userOps = .ok g) :
    submitBundle userOps beneficiary { maxFeePerGas := some mf, maxPriorityFeePerGas := some mp } =
      .ok ({ maxFeePerGas := mf * 120 / 100, maxPriorityFeePerGas := mp * 120 / 100,
             gasLimit := g * 12 / 10 },
        { ops := userOps, beneficiary := beneficiary, gasLimit := calculateGasLimit userOps,
          maxFeePerGas := none, maxPriorityFeePerGas := none }) := by
  unfold submitBundle
  rw [hg]
  rfl

/-- Witness for C6 at the concrete bundle `[opA]`. -/
theorem C6_submitBundle_overrides_ignored_witness :
    submitBundle [opA] addrB { maxFeePerGas := some 100, maxPriorityFeePerGas := some 50 } =
      .ok ({ maxFeePerGas := 100 * 120 / 100, maxPriorityFeePerGas := 50 * 120 / 100,
             gasLimit := 24000 * 12 / 10 },
        { ops := [opA], beneficiary := addrB, gasLimit := calculateGasLimit [opA],
          maxFeePerGas := none, maxPriorityFeePerGas := none }) :=
  C6_submitBundle_overrides_ignored [opA] addrB 100 50 24000 (by decide)

/-- A user operation whose `verificationGasLimit` exceeds the
JavaScript safe-integer range. -/
def opHuge : UserOp := { opA with verificationGasLimit := 2 ^ 60 }

/-- C7 counterexample: for a large 256-bit gas field the sum is not
capped at `MAX_BUNDLE_GAS_LIMIT` — `toNumber()` throws `overflow`
instead, so no value is returned at all. -/
theorem C7_toNumber_overflow_counterexample :
    estimateBundleGas [opHuge] = .error "overflow" := by
  decide

/-- C7 (amended): every value `estimateBundleGas` returns equals
`min (Σ (verificationGasLimit + callGasLimit) + 21000 × |ops|)
MAX_BUNDLE_GAS_LIMIT` and never exceeds the cap, but a value is returned
only when the sum is at most `MAX_SAFE_INTEGER` = 2^53 − 1; above that
bound the computation throws instead of capping. -/
theorem C7_estimateBundleGas_formula_cap (userOps : List UserOp) :
    (∀ g, estimateBundleGas userOps = .ok g →
      g = min (bundleGasTotal userOps) MAX_BUNDLE_GAS_LIMIT ∧ g ≤ MAX_BUNDLE_GAS_LIMIT) ∧
    (bundleGasTotal userOps > MAX_SAFE_INTEGER → estimateBundleGas userOps = .error "overflow") := by
  have htot : userOps.foldl (fun t op => t + op.verificationGasLimit + op.callGasLimit) 0 +
      21000 * userOps.length = bundleGasTotal userOps := by
    rw [foldl_gas_eq]
    simp [bundleGasTotal]
  constructor
  · intro g hg
    unfold estimateBundleGas at hg
    simp only [htot] at hg
    split at hg
    · exact absurd hg (by simp)
    · cases hg
      exact ⟨rfl, Nat.min_le_right _ _⟩
  · intro hbig
    unfold estimateBundleGas
    simp only [htot]
    split
    · rfl
    · next hle => exact absurd hbig (by omega)

/-- Witness for C7 at the concrete bundles `[opA]` and `[opHuge]`. -/
theorem C7_estimateBundleGas_formula_cap_witness :
    (24000 : Nat) = min (bundleGasTotal [opA]) MAX_BUNDLE_GAS_LIMIT ∧
    (24000 : Nat) ≤ MAX_BUNDLE_GAS_LIMIT ∧
    estimateBundleGas [opHuge] = .error "overflow" := by
  have h1 := (C7_estimateBundleGas_formula_cap [opA]).1 24000 (by decide)
  have h2 := (C7_estimateBundleGas_formula_cap [opHuge]).2 (by decide)
  exact ⟨h1.1, h1.2, h2⟩

/-! ### BundlerService: the per-tick bundle lifecycle -/

/-- Combined state seen by `BundlerService.createAndSubmitBundle`: the
mempool's dual store plus the `bundles` table. -/
structure BundlerState where
  pool : MempoolState
  bundles : List BundleRow
deriving DecidableEq, Repr

/-- Insertion step of a stable ascending sort on `submittedAt`
(the TypeORM `order: { submittedAt: 'ASC' }`). -/
def insertBySubmittedAt (r : UserOpRow) : List UserOpRow → List UserOpRow
  | [] => [r]
  | x :: xs =>
    if r.submittedAt < x.submittedAt then r :: x :: xs
    else x :: insertBySubmittedAt r xs

/-- Stable ascending sort on `submittedAt`. -/
def sortBySubmittedAt : List UserOpRow → List UserOpRow
  | [] => []
  | x :: xs => insertBySubmittedAt x (sortBySubmittedAt xs)

/-- `UserOperationRepository.getPendingUserOperations`: rows with
`status = 'pending'`, ordered by ascending `submittedAt`, first
`limit`. -/
def getPendingUserOperations (db : List UserOpRow) (limit : Nat) : List UserOpRow :=
  (sortBySubmittedAt (db.filter (fun r => r.status == OpStatus.pending))).take limit

/-- `BaseRepository.update` specialised to `bundles`. -/
def updateBundleById (bundles : List BundleRow) (i : String)
    (f : BundleRow → BundleRow) : List BundleRow :=
  bundles.map (fun b => if b.id == i then f b else b)

/-- `BundleRepository.createBundle`: fetch the ops by id, create a
`pending` bundle row referencing them (the cascade save sets the
`bundleId` foreign key on those rows). -/
def createBundle (st : BundlerState) (userOperationIds : List String)
    (bundleId : String) (now : Nat) : BundleRow × BundlerState :=
  let bundle : BundleRow :=
    { id := bundleId, status := .pending, submittedAt := now,
      transactionHash := none, blockNumber := none, error := none }
  let db1 := st.pool.db.map (fun r =>
    if userOperationIds.contains r.id then { r with bundleId := some bundleId } else r)
  (bundle, { pool := { st.pool with db := db1 }, bundles := st.bundles ++ [bundle] })

/-- `BundleRepository.markAsSubmitted` =
`updateStatus(id, 'submitted', transactionHash)`. -/
def bundleMarkAsSubmitted (st : BundlerState) (i tx : String) : BundlerState :=
  let bs := updateBundleById st.bundles i
    (fun b => { b with status := .submitted, transactionHash := some tx })
  { st with bundles := bs }

/-- `BundleRepository.markAsConfirmed` =
`updateStatus(id, 'confirmed', undefined, blockNumber)`; `blockNumber`
is only written when truthy. -/
def bundleMarkAsConfirmed (st : BundlerState) (i : String) (bn : Nat) : BundlerState :=
  let f := fun (b : BundleRow) =>
    { b with status := BundleStatus.confirmed, blockNumber := if bn != 0 then some bn else b.blockNumber }
  { st with bundles := updateBundleById st.bundles i f }

/-- `BundleRepository.markAsFailed` =
`updateStatus(id, 'failed', undefined, undefined, error)`.  The bundle
`error` column is written as-is (no truncation); `if (error)` skips a
falsy (empty) message. -/
def bundleMarkAsFailed (st : BundlerState) (i e : String) : BundlerState :=
  let f := fun (b : BundleRow) =>
    { b with status := BundleStatus.failed, error := if e != "" then some e else b.error }
  { st with bundles := updateBundleById st.bundles i f }

/-- `UserOperationRepository.markAsConfirmed(ids, blockNumber)` =
`updateStatus(ids, 'confirmed', undefined, blockNumber)`. -/
def userOpsMarkAsConfirmed (db : List UserOpRow) (ids : List String) (bn : Nat) :
    List UserOpRow :=
  let f := fun (r : UserOpRow) =>
    { r with status := OpStatus.confirmed, blockNumber := if bn != 0 then some bn else r.blockNumber }
  updateUserOpsByIds db ids f

/-- JavaScript `s.substring(0, 255)`: the first 255 characters. -/
def substring255 (s : String) : String := String.mk (s.toList.take 255)

/-- `UserOperationRepository.markAsFailed(ids, error)`: status
`'failed'` with `error.substring(0, 255)`. -/
def userOpsMarkAsFailed (db : List UserOpRow) (ids : List String) (e : String) :
    List UserOpRow :=
  updateUserOpsByIds db ids (fun r =>
    { r with status := .failed, error := some (substring255 e) })

/-- The outcome of steps 4–8 of a tick (gas estimation, fee fetching,
submission, receipt waiting): either the submission succeeded and the
receipt arrived, or some step threw with an error message.  This is the
single `catch` of `createAndSubmitBundle`. -/
inductive TickOutcome where
  | success (txHash : String) (blockNumber : Nat)
  | failure (errorMessage : String)
deriving DecidableEq, Repr

/-- The per-op `mempoolService.removeUserOperation(op.hash)` loop of the
failure path. -/
def removeOpsFromMempool (s : MempoolState) (hashes : List String) : MempoolState :=
  hashes.foldl (fun acc h => (removeUserOperation acc h).2) s

/-- `BundlerService.createAndSubmitBundle` as the list of states after
each durable write of one tick (the first element is the state after
the bundle row is created; the last is the state when the tick ends).
`bundleId` is the uuid generated for the bundle row and `now` its
`submittedAt`. -/
def createAndSubmitBundle (st : BundlerState) (outcome : TickOutcome)
    (bundleId : String) (now : Nat) : List BundlerState :=
  let pendingOps := getPendingUserOperations st.pool.db 10
  if pendingOps.length == 0 then [st]
  else
    let (bundle, st1) := createBundle st (pendingOps.map (fun r => r.id)) bundleId now
    match outcome with
    | .success txHash blockNumber =>
      let st2 := bundleMarkAsSubmitted st1 bundle.id txHash
      let st3 := bundleMarkAsConfirmed st2 bundle.id blockNumber
      let db4 := userOpsMarkAsConfirmed st3.pool.db (pendingOps.map (fun r => r.id)) blockNumber
      let st4 : BundlerState := { st3 with pool := { st3.pool with db := db4 } }
      [st1, st2, st3, st4]
    | .failure errorMessage =>
      let st2 := bundleMarkAsFailed st1 bundle.id errorMessage
      let db3 := userOpsMarkAsFailed st2.pool.db (pendingOps.map (fun r => r.id)) errorMessage
      let st3 : BundlerState := { st2 with pool := { st2.pool with db := db3 } }
      let st4 : BundlerState :=
        { st3 with pool := removeOpsFromMempool st3.pool (pendingOps.map (fun r => r.hash)) }
      [st1, st2, st3, st4]

/-! ### Lemmas about selection, repository updates and cache removal -/

theorem mem_insertBySubmittedAt {a r : UserOpRow} {l : List UserOpRow} :
    a ∈ insertBySubmittedAt r l ↔ a = r ∨ a ∈ l := by
  induction l with
  | nil => simp [insertBySubmittedAt]
  | cons x xs ih =>
    simp only [insertBySubmittedAt]
    split
    · simp
    · simp only [List.mem_cons, ih]
      tauto

theorem mem_sortBySubmittedAt {a : UserOpRow} {l : List UserOpRow} :
    a ∈ sortBySubmittedAt l ↔ a ∈ l := by
  induction l with
  | nil => simp [sortBySubmittedAt]
  | cons x xs ih => simp [sortBySubmittedAt, mem_insertBySubmittedAt, ih]

/-- Selected pending ops come from the table and are `pending`. -/
theorem getPendingUserOperations_mem {db : List UserOpRow} {n : Nat} {r : UserOpRow}
    (h : r ∈ getPendingUserOperations db n) : r ∈ db ∧ r.status = .pending := by
  unfold getPendingUserOperations at h
  have h1 := List.take_subset _ _ h
  rw [mem_sortBySubmittedAt] at h1
  have h2 := List.mem_filter.mp h1
  exact ⟨h2.1, by simpa using h2.2⟩

theorem updateUserOpById_eq_of_no_id {rows : List UserOpRow} {i : String}
    (h : ∀ r ∈ rows, r.id ≠ i) (f : UserOpRow → UserOpRow) :
    updateUserOpById rows i f = rows := by
  induction rows with
  | nil => rfl
  | cons x xs ih =>
    unfold updateUserOpById at *
    simp only [List.map_cons]
    have hx : (x.id == i) = false := by
      have := h x (by simp)
      simpa using this
    rw [hx]
    simp only [Bool.false_eq_true, if_false, List.cons.injEq, true_and]
    exact ih (fun r hr => h r (by simp [hr]))

theorem removeUserOperation_db_eq {s : MempoolState} {h0 : String}
    (h : ∀ r ∈ s.db, r.id ≠ h0) :
    ((removeUserOperation s h0).2).db = s.db := by
  unfold removeUserOperation
  cases hrm : removeFromMempool s h0 with
  | mk removed s1 =>
    have hdb : s1.db = s.db := by
      have h2 := removeFromMempool_db s h0
      rw [hrm] at h2
      exact h2
    cases removed
    · simpa using hdb
    · simp only [if_pos rfl]
      rw [hdb]
      exact updateUserOpById_eq_of_no_id h _

theorem removeOpsFromMempool_db_eq {hs : List String} {s : MempoolState}
    (h : ∀ h0 ∈ hs, ∀ r ∈ s.db, r.id ≠ h0) :
    (removeOpsFromMempool s hs).db = s.db := by
  induction hs generalizing s with
  | nil => rfl
  | cons x xs ih =>
    unfold removeOpsFromMempool at *
    simp only [List.foldl_cons]
    have hx : ((removeUserOperation s x).2).db = s.db :=
      removeUserOperation_db_eq (fun r hr => h x (by simp) r hr)
    rw [ih]
    · exact hx
    · intro h0 hh0 r hr
      rw [hx] at hr
      exact h h0 (by simp [hh0]) r hr

theorem lookup_filter_ne {α : Type} (l : List (String × α)) (k : String)
    (p : String × α → Bool) (h : l.lookup k = none) :
    (l.filter p).lookup k = none := by
  induction l with
  | nil => rfl
  | cons x xs ih =>
    cases x with
    | mk a b =>
      simp only [List.lookup] at h
      cases hka : (k == a) with
      | true => rw [hka] at h; exact absurd h (by simp)
      | false =>
        rw [hka] at h
        simp only [List.filter_cons]
        split
        · simp only [List.lookup, hka]
          exact ih h
        · exact ih h

theorem lookup_kvDel_self {α : Type} (l : List (String × α)) (k : String) :
    (kvDel l k).lookup k = none := by
  induction l with
  | nil => rfl
  | cons x xs ih =>
    cases x with
    | mk a b =>
      unfold kvDel at *
      simp only [List.filter_cons]
      split
      · next hne =>
        have hka : (k == a) = false := by
          simp only [bne_iff_ne, ne_eq] at hne
          simp
          exact fun e => hne e.symm
        simp only [List.lookup, hka]
        exact ih
      · exact ih

theorem lookup_kvDel_none {α : Type} {l : List (String × α)} {k : String} (k' : String)
    (h : l.lookup k = none) : (kvDel l k').lookup k = none :=
  lookup_filter_ne l k _ h

/-- After `removeUserOperation s h0`, the `mempool:` key `h0` is gone. -/
theorem removeUserOperation_lookup_self (s : MempoolState) (h0 : String) :
    ((removeUserOperation s h0).2).cache.mem.lookup h0 = none := by
  unfold removeUserOperation removeFromMempool
  cases hg : getUserOperation s h0 with
  | none =>
    simp only
    unfold getUserOperation at hg
    cases hl : s.cache.mem.lookup h0 with
    | none => exact hl
    | some c => rw [hl] at hg; exact absurd hg (by simp)
  | some r =>
    simp only
    split
    · exact lookup_kvDel_self _ _
    · exact lookup_kvDel_self _ _

/-- `removeUserOperation` never adds `mempool:` keys. -/
theorem removeUserOperation_lookup_none {s : MempoolState} {k : String} (h0 : String)
    (h : s.cache.mem.lookup k = none) :
    ((removeUserOperation s h0).2).cache.mem.lookup k = none := by
  unfold removeUserOperation removeFromMempool
  cases hg : getUserOperation s h0 with
  | none => simpa using h
  | some r =>
    simp only
    split
    · exact lookup_kvDel_none _ h
    · exact lookup_kvDel_none _ h

theorem removeOpsFromMempool_lookup_none {hs : List String} {s : MempoolState} {k : String}
    (h : s.cache.mem.lookup k = none) :
    ((removeOpsFromMempool s hs).cache.mem.lookup k = none) := by
  induction hs generalizing s with
  | nil => exact h
  | cons x xs ih =>
    unfold removeOpsFromMempool at *
    simp only [List.foldl_cons]
    exact ih (removeUserOperation_lookup_none x h)

/-- After the removal loop, every processed hash is out of the cache. -/
theorem removeOpsFromMempool_lookup_mem {hs : List String} {s : MempoolState} {h0 : String}
    (hm : h0 ∈ hs) :
    ((removeOpsFromMempool s hs).cache.mem.lookup h0 = none) := by
  induction hs generalizing s with
  | nil => cases hm
  | cons x xs ih =>
    unfold removeOpsFromMempool at *
    simp only [List.foldl_cons]
    rcases List.mem_cons.mp hm with hh | hh
    · subst hh
      exact removeOpsFromMempool_lookup_none (removeUserOperation_lookup_self s h0)
    · exact ih hh

theorem mem_of_contains {l : List String} {a : String} (h : l.contains a = true) : a ∈ l := by
  simpa using h

theorem getLastD_one {α : Type} (a e : α) : List.getLastD [a] e = a := rfl

theorem getLastD_four {α : Type} (a b c d e : α) : List.getLastD [a, b, c, d] e = d := rfl

/-- Membership in a conditional bulk update: either the row was matched
and rewritten, or it is an unmatched original. -/
theorem map_ite_ref {db : List UserOpRow} {ids : List String} {f : UserOpRow → UserOpRow}
    {r' : UserOpRow}
    (hr' : r' ∈ db.map (fun r => if ids.contains r.id then f r else r)) :
    (∃ r ∈ db, ids.contains r.id = true ∧ r' = f r) ∨
      (r' ∈ db ∧ ids.contains r'.id = false) := by
  obtain ⟨r, hrm, hre⟩ := List.mem_map.mp hr'
  by_cases hc : ids.contains r.id = true
  · rw [if_pos hc] at hre
    exact .inl ⟨r, hrm, hc, hre.symm⟩
  · rw [if_neg hc] at hre
    subst hre
    exact .inr ⟨hrm, by simpa using hc⟩

/-- Membership in `updateBundleById`: matched-and-rewritten or
unmatched original. -/
theorem updateBundleById_ref {bundles : List BundleRow} {i : String}
    {f : BundleRow → BundleRow} {b' : BundleRow}
    (hb' : b' ∈ updateBundleById bundles i f) :
    (∃ b ∈ bundles, (b.id == i) = true ∧ b' = f b) ∨
      (b' ∈ bundles ∧ (b'.id == i) = false) := by
  unfold updateBundleById at hb'
  obtain ⟨b, hbm, hbe⟩ := List.mem_map.mp hb'
  by_cases hc : (b.id == i) = true
  · rw [if_pos hc] at hbe
    exact .inl ⟨b, hbm, hc, hbe.symm⟩
  · rw [if_neg hc] at hbe
    subst hbe
    exact .inr ⟨hbm, by simpa using hc⟩

/-- The bundler state holding the single admitted op `opA` and no
bundles yet. -/
def bst1 : BundlerState := { pool := st1, bundles := [] }

/-- C4 counterexample: on the concrete store holding the single pending
op `opA` (row `id-1`), after the successful-submission transition
completes (second snapshot of the tick), the bundle row is `submitted`
while its referenced UserOp is still `pending` —
`UserOperationRepository.markAsSubmitted` is never invoked. -/
theorem C4_submitted_inconsistency_counterexample :
    ((createAndSubmitBundle bst1 (.success "0xtx" 5) "bundle-1" 10).get? 1).map
      (fun st => (st.bundles.map (fun b => b.status),
                  st.pool.db.map (fun r => (r.bundleId, r.status)))) =
      some ([BundleStatus.submitted], [(some "bundle-1", OpStatus.pending)]) := by
  decide

/-- Transport a row backwards through the failure-path removal loop:
the loop never touches the durable rows when no row id equals a
processed hash. -/
theorem mem_db_of_removeOps {hs : List String} {s : MempoolState} {r : UserOpRow}
    (hmem : r ∈ (removeOpsFromMempool s hs).db)
    (h : ∀ h0 ∈ hs, ∀ rr ∈ s.db, rr.id ≠ h0) : r ∈ s.db := by
  rw [removeOpsFromMempool_db_eq h] at hmem
  exact hmem

/-- C4 (amended): lifecycle consistency across one tick.  Over a store
with fresh bundle id `bid` (no existing bundle or row references it),
distinct row ids identifying rows, and uuid row ids never equal to any
row hash: at bundle creation the referenced UserOps are `pending` with
the bundle `pending`; at tick completion they are `confirmed` with a
`confirmed` bundle on success and `failed` with a `failed` bundle on
failure; but after the bundle is marked `submitted` (the second
snapshot) its constituent UserOps are NOT marked `submitted` — they
remain `pending`, as `UserOperationRepository.markAsSubmitted` is never
invoked. -/
theorem C4_lifecycle_consistency (st : BundlerState) (bid tx : String) (bn now : Nat)
    (msg : String)
    (hb : ∀ b ∈ st.bundles, b.id ≠ bid)
    (hrf : ∀ r ∈ st.pool.db, r.bundleId ≠ some bid)
    (hid : ∀ r ∈ st.pool.db, ∀ r2 ∈ st.pool.db, r.id = r2.id → r = r2)
    (hih : ∀ r ∈ st.pool.db, ∀ r2 ∈ st.pool.db, r.id ≠ r2.hash) :
    (∀ s0 ∈ (createAndSubmitBundle st (.success tx bn) bid now).head?,
      (∀ b ∈ s0.bundles, b.id = bid → b.status = BundleStatus.pending) ∧
      (∀ r ∈ s0.pool.db, r.bundleId = some bid → r.status = OpStatus.pending)) ∧
    (∀ s2 ∈ (createAndSubmitBundle st (.success tx bn) bid now).get? 1,
      (∀ b ∈ s2.bundles, b.id = bid → b.status = BundleStatus.submitted) ∧
      (∀ r ∈ s2.pool.db, r.bundleId = some bid → r.status = OpStatus.pending)) ∧
    (∀ b ∈ ((createAndSubmitBundle st (.success tx bn) bid now).getLastD st).bundles,
      b.id = bid → b.status = BundleStatus.confirmed) ∧
    (∀ r ∈ ((createAndSubmitBundle st (.success tx bn) bid now).getLastD st).pool.db,
      r.bundleId = some bid → r.status = OpStatus.confirmed) ∧
    (∀ b ∈ ((createAndSubmitBundle st (.failure msg) bid now).getLastD st).bundles,
      b.id = bid → b.status = BundleStatus.failed) ∧
    (∀ r ∈ ((createAndSubmitBundle st (.failure msg) bid now).getLastD st).pool.db,
      r.bundleId = some bid → r.status = OpStatus.failed) := by
  have hPmem : ∀ p ∈ getPendingUserOperations st.pool.db 10,
      p ∈ st.pool.db ∧ p.status = OpStatus.pending := fun p hp => getPendingUserOperations_mem hp
  have hrow1 : ∀ r' ∈ st.pool.db.map (fun r =>
      if ((getPendingUserOperations st.pool.db 10).map (fun q => q.id)).contains r.id
      then { r with bundleId := some bid } else r),
      r'.bundleId = some bid → r'.status = OpStatus.pending := by
    intro r' hr' hb'
    rcases map_ite_ref hr' with ⟨r, hrm, hc, rfl⟩ | ⟨hrm, hc⟩
    · obtain ⟨p, hp, hpid⟩ := List.mem_map.mp (mem_of_contains hc)
      have hpd := hPmem p hp
      have hpr : p = r := hid p hpd.1 r hrm hpid
      show r.status = OpStatus.pending
      rw [← hpr]
      exact hpd.2
    · exact absurd hb' (hrf r' hrm)
  have href1 : ∀ r' ∈ st.pool.db.map (fun r =>
      if ((getPendingUserOperations st.pool.db 10).map (fun q => q.id)).contains r.id
      then { r with bundleId := some bid } else r),
      r'.bundleId = some bid →
        ((getPendingUserOperations st.pool.db 10).map (fun q => q.id)).contains r'.id = true := by
    intro r' hr' hb'
    rcases map_ite_ref hr' with ⟨r, hrm, hc, rfl⟩ | ⟨hrm, hc⟩
    · exact hc
    · exact absurd hb' (hrf r' hrm)
  have hcond : ∀ h0 ∈ (getPendingUserOperations st.pool.db 10).map (fun q => q.hash),
      ∀ rr ∈ userOpsMarkAsFailed
        (st.pool.db.map (fun r =>
          if ((getPendingUserOperations st.pool.db 10).map (fun q => q.id)).contains r.id
          then { r with bundleId := some bid } else r))
        ((getPendingUserOperations st.pool.db 10).map (fun q => q.id)) msg,
      rr.id ≠ h0 := by
    intro h0 hh0 rr hrr
    obtain ⟨p, hp, rfl⟩ := List.mem_map.mp hh0
    simp only [userOpsMarkAsFailed, updateUserOpsByIds] at hrr
    rcases map_ite_ref hrr with ⟨r1, hr1, hc1, rfl⟩ | ⟨hr1, hc1⟩
    · rcases map_ite_ref hr1 with ⟨r0, hr0, hc0, rfl⟩ | ⟨hr0, hc0⟩
      · exact hih r0 hr0 p (hPmem p hp).1
      · exact hih r1 hr0 p (hPmem p hp).1
    · rcases map_ite_ref hr1 with ⟨r0, hr0, hc0, rfl⟩ | ⟨hr0, hc0⟩
      · exact hih r0 hr0 p (hPmem p hp).1
      · exact hih rr hr0 p (hPmem p hp).1
  refine ⟨?_, ?_, ?_, ?_, ?_, ?_⟩
  · intro s0 hs0
    simp only [createAndSubmitBundle] at hs0
    by_cases hP : ((getPendingUserOperations st.pool.db 10).length == 0) = true
    · rw [if_pos hP] at hs0
      rw [List.head?_cons] at hs0
      simp only [Option.mem_def, Option.some.injEq] at hs0
      subst hs0
      exact ⟨fun b hbm hbid => absurd hbid (hb b hbm),
             fun r hrm hrb => absurd hrb (hrf r hrm)⟩
    · rw [if_neg hP] at hs0
      simp only [createBundle] at hs0
      rw [List.head?_cons] at hs0
      simp only [Option.mem_def, Option.some.injEq] at hs0
      subst hs0
      constructor
      · intro b hbm hbid
        rcases List.mem_append.mp hbm with h | h
        · exact absurd hbid (hb b h)
        · simp only [List.mem_singleton] at h
          subst h
          rfl
      · exact hrow1
  · intro s2 hs2
    simp only [createAndSubmitBundle] at hs2
    by_cases hP : ((getPendingUserOperations st.pool.db 10).length == 0) = true
    · rw [if_pos hP] at hs2
      rw [List.get?_cons_succ, List.get?_nil] at hs2
      exact absurd hs2 (by simp)
    · rw [if_neg hP] at hs2
      simp only [createBundle] at hs2
      rw [List.get?_cons_succ, List.get?_cons_zero] at hs2
      simp only [Option.mem_def, Option.some.injEq] at hs2
      subst hs2
      constructor
      · intro b hbm hbid
        simp only [bundleMarkAsSubmitted] at hbm
        rcases updateBundleById_ref hbm with ⟨b0, hb0, hc, rfl⟩ | ⟨hbm0, hc⟩
        · rfl
        · rw [hbid] at hc
          simp at hc
      · intro r hrm hb'
        simp only [bundleMarkAsSubmitted] at hrm
        exact hrow1 r hrm hb'
  · intro b hbm hbid
    simp only [createAndSubmitBundle] at hbm
    by_cases hP : ((getPendingUserOperations st.pool.db 10).length == 0) = true
    · rw [if_pos hP, getLastD_one] at hbm
      exact absurd hbid (hb b hbm)
    · rw [if_neg hP] at hbm
      simp only [createBundle] at hbm
      rw [getLastD_four] at hbm
      simp only [bundleMarkAsConfirmed, bundleMarkAsSubmitted] at hbm
      rcases updateBundleById_ref hbm with ⟨b0, hb0, hc, rfl⟩ | ⟨hbm0, hc⟩
      · rfl
      · rw [hbid] at hc
        simp at hc
  · intro r hrm hb'
    simp only [createAndSubmitBundle] at hrm
    by_cases hP : ((getPendingUserOperations st.pool.db 10).length == 0) = true
    · rw [if_pos hP, getLastD_one] at hrm
      exact absurd hb' (hrf r hrm)
    · rw [if_neg hP] at hrm
      simp only [createBundle] at hrm
      rw [getLastD_four] at hrm
      simp only [bundleMarkAsConfirmed, bundleMarkAsSubmitted, userOpsMarkAsConfirmed,
        updateUserOpsByIds] at hrm
      rcases map_ite_ref hrm with ⟨r0, hr0, hc, rfl⟩ | ⟨hrm0, hc⟩
      · rfl
      · have h2 := href1 r hrm0 hb'
        rw [h2] at hc
        cases hc
  · intro b hbm hbid
    simp only [createAndSubmitBundle] at hbm
    by_cases hP : ((getPendingUserOperations st.pool.db 10).length == 0) = true
    · rw [if_pos hP, getLastD_one] at hbm
      exact absurd hbid (hb b hbm)
    · rw [if_neg hP] at hbm
      simp only [createBundle] at hbm
      rw [getLastD_four] at hbm
      simp only [bundleMarkAsFailed] at hbm
      rcases updateBundleById_ref hbm with ⟨b0, hb0, hc, rfl⟩ | ⟨hbm0, hc⟩
      · rfl
      · rw [hbid] at hc
        simp at hc
  · intro r hrm hb'
    simp only [createAndSubmitBundle] at hrm
    by_cases hP : ((getPendingUserOperations st.pool.db 10).length == 0) = true
    · rw [if_pos hP, getLastD_one] at hrm
      exact absurd hb' (hrf r hrm)
    · rw [if_neg hP] at hrm
      simp only [createBundle] at hrm
      rw [getLastD_four] at hrm
      simp only [bundleMarkAsFailed] at hrm
      have hrm2 := mem_db_of_removeOps hrm hcond
      simp only [userOpsMarkAsFailed, updateUserOpsByIds] at hrm2
      rcases map_ite_ref hrm2 with ⟨r1, hr1, hc1, rfl⟩ | ⟨hr1, hc1⟩
      · rfl
      · have h2 := href1 r hr1 hb'
        rw [h2] at hc1
        cases hc1

/-- Witness for C4 at the concrete store holding only `opA`: at the end
of a successful tick the bundle row and its referenced UserOp row are
both `confirmed`. -/
theorem C4_lifecycle_consistency_witness :
    (⟨"bundle-1", BundleStatus.confirmed, 10, some "0xtx", some 5, none⟩ : BundleRow) ∈
      ((createAndSubmitBundle bst1 (.success "0xtx" 5) "bundle-1" 10).getLastD bst1).bundles ∧
    (⟨"id-1", hashA, opA, OpStatus.confirmed, 0, some "bundle-1", none, some 5, none⟩ :
      UserOpRow) ∈
      ((createAndSubmitBundle bst1 (.success "0xtx" 5) "bundle-1" 10).getLastD bst1).pool.db ∧
    BundleStatus.confirmed = BundleStatus.confirmed ∧
    OpStatus.confirmed = OpStatus.confirmed := by
  have h := C4_lifecycle_consistency bst1 "bundle-1" "0xtx" 5 10 "boom"
    (by decide) (by decide) (by decide) (by decide)
  refine ⟨by decide, by decide, ?_, ?_⟩
  · exact h.2.2.1 ⟨"bundle-1", BundleStatus.confirmed, 10, some "0xtx", some 5, none⟩
      (by decide) rfl
  · exact h.2.2.2.1 ⟨"id-1", hashA, opA, OpStatus.confirmed, 0, some "bundle-1", none, some 5, none⟩
      (by decide) rfl

/-- A 256-character error message (one character past the truncation
bound). -/
def msg300 : String := String.mk (List.replicate 256 'x')

/-- The state at the end of a failed tick on the concrete store holding
only `opA`, with the 256-character error message. -/
def lastFailState : BundlerState :=
  (createAndSubmitBundle bst1 (.failure msg300) "bundle-1" 10).getLastD bst1

set_option maxRecDepth 8000 in
/-- C5 counterexample: the claim says the bundle row's error message is
truncated to 255 characters.  On the failed tick with a 256-character
message, the bundle row stores the full 256-character message —
`BundleRepository.updateStatus` never truncates; only the UserOp rows
get `error.substring(0, 255)`. -/
theorem C5_bundle_error_untruncated_counterexample :
    lastFailState.bundles.map (fun b => b.error) = [some msg300] ∧
    msg300.length = 256 ∧ (substring255 msg300).length = 255 ∧
    substring255 msg300 ≠ msg300 := by
  decide

/-- C5 (amended): on any failure of steps 4–8, the bundle row is marked
`failed` carrying the full (untruncated) error message, every
constituent UserOp row is marked `failed` with the message truncated to
255 characters, each constituent op's `mempool:` cache key is deleted,
and none of them is selected by the next pending query (no automatic
retry). -/
theorem C5_failure_handling (st : BundlerState) (bid : String) (now : Nat) (msg : String)
    (hb : ∀ b ∈ st.bundles, b.id ≠ bid)
    (hrf : ∀ r ∈ st.pool.db, r.bundleId ≠ some bid)
    (hid : ∀ r ∈ st.pool.db, ∀ r2 ∈ st.pool.db, r.id = r2.id → r = r2)
    (hih : ∀ r ∈ st.pool.db, ∀ r2 ∈ st.pool.db, r.id ≠ r2.hash)
    (hmsg : msg ≠ "") :
    (∀ b ∈ ((createAndSubmitBundle st (.failure msg) bid now).getLastD st).bundles,
      b.id = bid → b.status = BundleStatus.failed ∧ b.error = some msg) ∧
    (∀ r ∈ ((createAndSubmitBundle st (.failure msg) bid now).getLastD st).pool.db,
      r.bundleId = some bid →
        r.status = OpStatus.failed ∧ r.error = some (substring255 msg) ∧
        ((createAndSubmitBundle st (.failure msg) bid now).getLastD st).pool.cache.mem.lookup
          r.hash = none) ∧
    (∀ r ∈ getPendingUserOperations
        (((createAndSubmitBundle st (.failure msg) bid now).getLastD st).pool.db) 10,
      r.bundleId ≠ some bid) := by
  have hPmem : ∀ p ∈ getPendingUserOperations st.pool.db 10,
      p ∈ st.pool.db ∧ p.status = OpStatus.pending := fun p hp => getPendingUserOperations_mem hp
  have href1 : ∀ r' ∈ st.pool.db.map (fun r =>
      if ((getPendingUserOperations st.pool.db 10).map (fun q => q.id)).contains r.id
      then { r with bundleId := some bid } else r),
      r'.bundleId = some bid →
        ((getPendingUserOperations st.pool.db 10).map (fun q => q.id)).contains r'.id = true := by
    intro r' hr' hb'
    rcases map_ite_ref hr' with ⟨r, hrm, hc, rfl⟩ | ⟨hrm, hc⟩
    · exact hc
    · exact absurd hb' (hrf r' hrm)
  have hmain : (∀ b ∈ ((createAndSubmitBundle st (.failure msg) bid now).getLastD st).bundles,
      b.id = bid → b.status = BundleStatus.failed ∧ b.error = some msg) ∧
      (∀ r ∈ ((createAndSubmitBundle st (.failure msg) bid now).getLastD st).pool.db,
        r.bundleId = some bid →
          r.status = OpStatus.failed ∧ r.error = some (substring255 msg) ∧
          ((createAndSubmitBundle st (.failure msg) bid now).getLastD st).pool.cache.mem.lookup
            r.hash = none) := by
    by_cases hP : ((getPendingUserOperations st.pool.db 10).length == 0) = true
    · constructor
      · intro b hbm hbid
        simp only [createAndSubmitBundle] at hbm
        rw [if_pos hP, getLastD_one] at hbm
        exact absurd hbid (hb b hbm)
      · intro r hrm hb'
        simp only [createAndSubmitBundle] at hrm
        rw [if_pos hP, getLastD_one] at hrm
        exact absurd hb' (hrf r hrm)
    · have hcond : ∀ h0 ∈ (getPendingUserOperations st.pool.db 10).map (fun q => q.hash),
          ∀ rr ∈ userOpsMarkAsFailed
            (st.pool.db.map (fun r =>
              if ((getPendingUserOperations st.pool.db 10).map (fun q => q.id)).contains r.id
              then { r with bundleId := some bid } else r))
            ((getPendingUserOperations st.pool.db 10).map (fun q => q.id)) msg,
          rr.id ≠ h0 := by
        intro h0 hh0 rr hrr
        obtain ⟨p, hp, rfl⟩ := List.mem_map.mp hh0
        simp only [userOpsMarkAsFailed, updateUserOpsByIds] at hrr
        rcases map_ite_ref hrr with ⟨r1, hr1, hc1, rfl⟩ | ⟨hr1, hc1⟩
        · rcases map_ite_ref hr1 with ⟨r0, hr0, hc0, rfl⟩ | ⟨hr0, hc0⟩
          · exact hih r0 hr0 p (hPmem p hp).1
          · exact hih r1 hr0 p (hPmem p hp).1
        · rcases map_ite_ref hr1 with ⟨r0, hr0, hc0, rfl⟩ | ⟨hr0, hc0⟩
          · exact hih r0 hr0 p (hPmem p hp).1
          · exact hih rr hr0 p (hPmem p hp).1
      constructor
      · intro b hbm hbid
        simp only [createAndSubmitBundle] at hbm
        rw [if_neg hP] at hbm
        simp only [createBundle] at hbm
        rw [getLastD_four] at hbm
        simp only [bundleMarkAsFailed] at hbm
        rcases updateBundleById_ref hbm with ⟨b0, hb0, hc, rfl⟩ | ⟨hbm0, hc⟩
        · refine ⟨rfl, ?_⟩
          show (if (msg != "") = true then some msg else b0.error) = some msg
          rw [if_pos (by simpa using hmsg)]
        · rw [hbid] at hc
          simp at hc
      · intro r hrm hb'
        simp only [createAndSubmitBundle] at hrm ⊢
        rw [if_neg hP] at hrm ⊢
        simp only [createBundle] at hrm ⊢
        rw [getLastD_four] at hrm ⊢
        simp only [bundleMarkAsFailed] at hrm ⊢
        have hrm2 := mem_db_of_removeOps hrm hcond
        simp only [userOpsMarkAsFailed, updateUserOpsByIds] at hrm2
        rcases map_ite_ref hrm2 with ⟨r1, hr1, hc1, rfl⟩ | ⟨hr1, hc1⟩
        · refine ⟨rfl, rfl, ?_⟩
          obtain ⟨p, hp, hpid⟩ := List.mem_map.mp (mem_of_contains hc1)
          have hhash : r1.hash = p.hash := by
            rcases map_ite_ref hr1 with ⟨r0, hr0, hc0, rfl⟩ | ⟨hr0, hc0⟩
            · have hpr : p = r0 := hid p (hPmem p hp).1 r0 hr0 hpid
              rw [← hpr]
            · have hpr : p = r1 := hid p (hPmem p hp).1 r1 hr0 hpid
              rw [← hpr]
          show (removeOpsFromMempool _ _).cache.mem.lookup r1.hash = none
          rw [hhash]
          exact removeOpsFromMempool_lookup_mem (List.mem_map.mpr ⟨p, hp, rfl⟩)
        · have h2 := href1 r hr1 hb'
          rw [h2] at hc1
          cases hc1
  refine ⟨hmain.1, hmain.2, ?_⟩
  intro r hr hcontra
  have hd := getPendingUserOperations_mem hr
  have hf := (hmain.2 r hd.1 hcontra).1
  rw [hd.2] at hf
  exact absurd hf (by decide)

set_option maxRecDepth 8000 in
/-- Witness for C5 on the concrete store holding only `opA` and the
256-character message: the failed bundle row carries the full message,
the failed UserOp row carries the truncated message, and its `mempool:`
cache key is gone. -/
theorem C5_failure_handling_witness :
    (⟨"bundle-1", BundleStatus.failed, 10, none, none, some msg300⟩ : BundleRow) ∈
      lastFailState.bundles ∧
    (⟨"id-1", hashA, opA, OpStatus.failed, 0, some "bundle-1", none, none,
        some (substring255 msg300)⟩ : UserOpRow) ∈ lastFailState.pool.db ∧
    BundleStatus.failed = BundleStatus.failed ∧
    some msg300 = some msg300 ∧
    lastFailState.pool.cache.mem.lookup hashA = none := by
  have h := C5_failure_handling bst1 "bundle-1" 10 msg300
    (by decide) (by decide) (by decide) (by decide) (by decide)
  refine ⟨by decide, by decide, rfl, rfl, ?_⟩
  have h2 := h.2.1 ⟨"id-1", hashA, opA, OpStatus.failed, 0, some "bundle-1", none, none,
    some (substring255 msg300)⟩ (by decide) rfl
  exact h2.2.2

/-! ### JSON-RPC: eth_getUserOperationByHash -/

/-- A thrown `RpcError` (`types/errors`): code and message.
`ERROR_CODES.INVALID_PARAMS = -32602`. -/
structure RpcErr where
  code : Int
  message : String
deriving DecidableEq, Repr

/-- The `eth_getUserOperationByHash` result object built by the
handler. -/
structure UserOpByHashResult where
  userOperation : UserOp
  entryPoint : String
  blockNumber : Option Nat
  blockHash : Option String
  transactionHash : Option String
deriving DecidableEq, Repr

/-- `handleGetUserOperationByHash`: reject missing params with
INVALID_PARAMS; look the hash up via `mempoolService.getUserOperation`;
when absent, the inner `RpcError('User operation not found',
INVALID_PARAMS)` is caught by the handler's own `catch` and rewrapped
as `Failed to get user operation: …` with INVALID_PARAMS; when present,
return the result object (`blockHash` is always `null` in the source). -/
def handleGetUserOperationByHash (s : MempoolState) (params : List String)
    (entryPointAddress : String) : Except RpcErr UserOpByHashResult :=
  match params with
  | [] => .error ⟨-32602, "Missing user operation hash"⟩
  | h :: _ =>
    match getUserOperation s h with
    | none => .error ⟨-32602, "Failed to get user operation: User operation not found"⟩
    | some userOp =>
      .ok { userOperation := userOp.op, entryPoint := entryPointAddress,
            blockNumber := userOp.blockNumber, blockHash := none,
            transactionHash := userOp.transactionHash }

/-- A JSON-RPC result value for this method: the object or JSON
`null`. -/
inductive RpcResult where
  | null
  | obj (o : UserOpByHashResult)
deriving DecidableEq, Repr

/-- A single JSON-RPC response: `result` on success, `error` when the
handler threw an `RpcError`. -/
structure JsonRpcResponse where
  result : Option RpcResult
  error : Option RpcErr
deriving DecidableEq, Repr

/-- `handleSingleRequest` specialised to `eth_getUserOperationByHash`:
the handler's return value becomes `response.result`; a thrown
`RpcError` becomes `response.error` with its code. -/
def dispatchGetUserOperationByHash (s : MempoolState) (params : List String)
    (entryPointAddress : String) : JsonRpcResponse :=
  match handleGetUserOperationByHash s params entryPointAddress with
  | .ok v => { result := some (.obj v), error := none }
  | .error e => { result := none, error := some e }

/-- The configured EntryPoint address used in the concrete scenarios. -/
def entryPointAddr : String := "0xcccccccccccccccccccccccccccccccccccccccc"

/-- C8 (code bug): for a known hash the method returns the
`{userOperation, entryPoint, blockNumber, blockHash, transactionHash}`
object, but for an unknown hash it returns a JSON-RPC *error* with code
−32602 (`Failed to get user operation: User operation not found`)
instead of the `result: null` that the claim — and the repository's own
test "should return null for non-existent user operation" — require. -/
def foundResult : UserOpByHashResult :=
  { userOperation := opA, entryPoint := entryPointAddr, blockNumber := none,
    blockHash := none, transactionHash := none }

theorem C8_getUserOperationByHash_code_behavior :
    dispatchGetUserOperationByHash mempoolEmpty
        ["0xaaaaaaaaaaaaaaaaaaaaaaaaaaaaaaaaaaaaaaaaaaaaaaaaaaaaaaaaaaaaaaaa"]
        entryPointAddr =
      { result := none,
        error := some ⟨-32602, "Failed to get user operation: User operation not found"⟩ } ∧
    dispatchGetUserOperationByHash st1 [hashA] entryPointAddr =
      { result := some (.obj foundResult), error := none } := by
  decide

/-! ### RedisService.rateLimit -/

/-- Outcome of one Redis call: the value, or a thrown error. -/
inductive KvRes (α : Type) where
  | ok (a : α)
  | err (e : String)

/-- The responses of the five Redis calls `rateLimit` makes, in program
order: `zRemRangeByScore(key, 0, clearBefore)`, `zCount(key,
windowStart, now)`, `zRange(key, 0, 0, {BY: 'SCORE', REV: true})`
(returned entries parsed with `parseInt`), `zAdd(key, {score: now,
value: now.toString()})` and `expire(key, …)`. -/
structure RateLimitKv where
  zRemRangeByScore : KvRes Unit
  zCount : KvRes Nat
  zRange : KvRes (List Nat)
  zAdd : KvRes Unit
  expire : KvRes Bool

/-- The `{allowed, remaining, reset}` object `rateLimit` returns. -/
structure RateLimitResult where
  allowed : Bool
  remaining : Nat
  reset : Nat
deriving DecidableEq, Repr

/-- `RedisService.rateLimit`: clean old entries, count the window; at or
beyond the limit answer `allowed: false` with the reset computed from
the `zRange` entry; otherwise record the request, set the key expiry
and answer `allowed: true`.  Any Redis error is caught and the function
fails open.  (`Math.max(0, a - b)` is truncated `Nat` subtraction.) -/
def rateLimit (kv : RateLimitKv) (now windowMs maxRequests : Nat) : RateLimitResult :=
  let failOpen : RateLimitResult :=
    { allowed := true, remaining := maxRequests, reset := now + windowMs }
  match kv.zRemRangeByScore with
  | .err _ => failOpen
  | .ok _ =>
    match kv.zCount with
    | .err _ => failOpen
    | .ok count =>
      if count ≥ maxRequests then
        match kv.zRange with
        | .err _ => failOpen
        | .ok oldest =>
          let resetTime := match oldest with
            | [] => now + windowMs
            | t :: _ => t + windowMs
          { allowed := false, remaining := maxRequests - count, reset := resetTime }
      else
        match kv.zAdd with
        | .err _ => failOpen
        | .ok _ =>
          match kv.expire with
          | .err _ => failOpen
          | .ok _ =>
            { allowed := true, remaining := maxRequests - count - 1, reset := now + windowMs }

/-- Whether the `rateLimit` run hits a thrown Redis call on its executed
path (the calls after the first error are never reached, and the
`zRange` call only runs on the at-limit branch). -/
def rateLimitErrored (kv : RateLimitKv) (maxRequests : Nat) : Bool :=
  match kv.zRemRangeByScore with
  | .err _ => true
  | .ok _ =>
    match kv.zCount with
    | .err _ => true
    | .ok count =>
      if count ≥ maxRequests then
        match kv.zRange with
        | .err _ => true
        | .ok _ => false
      else
        match kv.zAdd with
        | .err _ => true
        | .ok _ =>
          match kv.expire with
          | .err _ => true
          | .ok _ => false

/-- C10: rate limiting fails open.  Whenever any Redis call on the
executed path throws, `rateLimit` returns
`{allowed: true, remaining: maxRequests, reset: now + windowMs}`. -/
theorem C10_rateLimit_fails_open (kv : RateLimitKv) (now windowMs maxRequests : Nat)
    (h : rateLimitErrored kv maxRequests = true) :
    rateLimit kv now windowMs maxRequests =
      { allowed := true, remaining := maxRequests, reset := now + windowMs } := by
  unfold rateLimit rateLimitErrored at *
  cases hz : kv.zRemRangeByScore with
  | err e => rfl
  | ok u =>
    cases hc : kv.zCount with
    | err e => rfl
    | ok count =>
      rw [hz, hc] at h
      dsimp only at h ⊢
      by_cases hge : count ≥ maxRequests
      · rw [if_pos hge] at h ⊢
        cases hr : kv.zRange with
        | err e => rfl
        | ok l =>
          rw [hr] at h
          simp at h
      · rw [if_neg hge] at h ⊢
        cases ha : kv.zAdd with
        | err e => rfl
        | ok u2 =>
          cases he : kv.expire with
          | err e => rfl
          | ok b =>
            rw [ha, he] at h
            simp at h

/-- Witness for C10: a run whose `zCount` throws fails open. -/
theorem C10_rateLimit_fails_open_witness :
    rateLimit { zRemRangeByScore := .ok (), zCount := .err "connection reset",
                zRange := .ok [], zAdd := .ok (), expire := .ok true } 1000 60000 100 =
      { allowed := true, remaining := 100, reset := 61000 } := by
  have h := C10_rateLimit_fails_open
    { zRemRangeByScore := .ok (), zCount := .err "connection reset",
      zRange := .ok [], zAdd := .ok (), expire := .ok true } 1000 60000 100 rfl
  exact h

/-! ### The bundle lock -/

/-- Phase of one worker's `bundleLoop` tick attempt.  `inCS ok` means
the worker holds `bundle:lock` and is inside `createAndSubmitBundle`;
`ok` records whether that call will return or throw (both paths reach
the `finally`). -/
inductive WorkerPhase where
  | idle
  | inCS (ok : Bool)
  | done (acquired : Bool)
deriving DecidableEq, Repr

/-- The KV store's `bundle:lock` key (present or absent) plus every
worker's phase. -/
structure LockSystem where
  lock : Bool
  workers : Nat → WorkerPhase

/-- One atomic step of the interleaved tick attempts.  `acquireOk` is
Redis `SET bundle:lock 1 NX EX 30` succeeding because the key is
absent; `acquireFail` is the same call answering null because the key
exists (the tick is skipped); `release` is the `finally` block's
`DEL bundle:lock`, taken whether `createAndSubmitBundle` returned
(`ok = true`) or threw (`ok = false`). -/
inductive TickStep : LockSystem → LockSystem → Prop where
  | acquireOk (s : LockSystem) (i : Nat) (ok : Bool)
      (hw : s.workers i = .idle) (hl : s.lock = false) :
      TickStep s { lock := true, workers := Function.update s.workers i (.inCS ok) }
  | acquireFail (s : LockSystem) (i : Nat)
      (hw : s.workers i = .idle) (hl : s.lock = true) :
      TickStep s { s with workers := Function.update s.workers i (.done false) }
  | release (s : LockSystem) (i : Nat) (ok : Bool)
      (hw : s.workers i = .inCS ok) :
      TickStep s { lock := false, workers := Function.update s.workers i (.done true) }

/-- All workers idle, no `bundle:lock` key. -/
def initLockSystem : LockSystem := { lock := false, workers := fun _ => .idle }

/-- States reachable under any interleaving of tick attempts. -/
def ReachableLock : LockSystem → Prop := Relation.ReflTransGen TickStep initLockSystem

/-- The inductive invariant: no lock key means nobody is in the
critical section, at most one worker is ever in the critical section,
and the lock key exists only while some worker is inside. -/
def LockInv (s : LockSystem) : Prop :=
  (s.lock = false → ∀ i ok, s.workers i ≠ .inCS ok) ∧
  (∀ i j oi oj, s.workers i = .inCS oi → s.workers j = .inCS oj → i = j) ∧
  (s.lock = true → ∃ i ok, s.workers i = .inCS ok)

theorem lockInv_init : LockInv initLockSystem := by
  refine ⟨fun _ i ok h => by simp [initLockSystem] at h, ?_, ?_⟩
  · intro i j oi oj hi hj
    simp [initLockSystem] at hi
  · intro h
    simp [initLockSystem] at h

theorem lockInv_step {s s' : LockSystem} (hstep : TickStep s s') (hinv : LockInv s) :
    LockInv s' := by
  obtain ⟨h1, h2, h3⟩ := hinv
  cases hstep with
  | acquireOk i ok hw hl =>
    refine ⟨?_, ?_, ?_⟩
    · intro hfalse
      simp at hfalse
    · intro a b oa ob ha hb
      dsimp only at ha hb
      by_cases hai : a = i
      · by_cases hbi : b = i
        · rw [hai, hbi]
        · rw [Function.update_noteq hbi] at hb
          exact absurd hb (h1 hl b ob)
      · rw [Function.update_noteq hai] at ha
        exact absurd ha (h1 hl a oa)
    · intro _
      exact ⟨i, ok, by dsimp only; rw [Function.update_same]⟩
  | acquireFail i hw hl =>
    refine ⟨?_, ?_, ?_⟩
    · intro hfalse
      dsimp only at hfalse
      rw [hl] at hfalse
      cases hfalse
    · intro a b oa ob ha hb
      dsimp only at ha hb
      by_cases hai : a = i
      · subst hai
        rw [Function.update_same] at ha
        cases ha
      · rw [Function.update_noteq hai] at ha
        by_cases hbi : b = i
        · subst hbi
          rw [Function.update_same] at hb
          cases hb
        · rw [Function.update_noteq hbi] at hb
          exact h2 a b oa ob ha hb
    · intro _
      obtain ⟨j, oj, hj⟩ := h3 hl
      have hji : j ≠ i := by
        intro e
        rw [e, hw] at hj
        cases hj
      exact ⟨j, oj, by dsimp only; rw [Function.update_noteq hji]; exact hj⟩
  | release i ok hw =>
    refine ⟨?_, ?_, ?_⟩
    · intro _ a oa ha
      dsimp only at ha
      by_cases hai : a = i
      · subst hai
        rw [Function.update_same] at ha
        cases ha
      · rw [Function.update_noteq hai] at ha
        exact absurd (h2 a i oa ok ha hw) hai
    · intro a b oa ob ha hb
      dsimp only at ha hb
      by_cases hai : a = i
      · subst hai
        rw [Function.update_same] at ha
        cases ha
      · rw [Function.update_noteq hai] at ha
        exact absurd (h2 a i oa ok ha hw) hai
    · intro hlock
      simp at hlock

theorem lockInv_reachable {s : LockSystem} (h : ReachableLock s) : LockInv s := by
  induction h with
  | refl => exact lockInv_init
  | tail hsteps hstep ih => exact lockInv_step hstep ih

/-- C9: bundle lock mutual exclusion.  (1) In every reachable state at
most one worker is inside the critical section, so at most one
concurrent `SET bundle:lock NX EX` succeeds while the key exists.
(2) Whenever a step takes a worker out of the critical section — on the
success and on the failure outcome alike — that step is the `finally`
release: it deletes the lock key and ends the tick.  (3) In every
reachable state, once no worker is inside a tick's critical section the
lock key is gone. -/
theorem C9_bundle_lock_mutual_exclusion :
    (∀ s, ReachableLock s → ∀ i j oi oj, i ≠ j →
      s.workers i = .inCS oi → s.workers j = .inCS oj → False) ∧
    (∀ s s', TickStep s s' → ∀ i ok, s.workers i = .inCS ok →
      s'.workers i ≠ .inCS ok → s'.lock = false ∧ s'.workers i = .done true) ∧
    (∀ s, ReachableLock s → (∀ i b, s.workers i ≠ .inCS b) → s.lock = false) := by
  refine ⟨?_, ?_, ?_⟩
  · intro s hs i j oi oj hij hi hj
    exact hij ((lockInv_reachable hs).2.1 i j oi oj hi hj)
  · intro s s' hstep i ok hin hnot
    cases hstep with
    | acquireOk j ok' hw hl =>
      dsimp only at hnot
      by_cases hji : i = j
      · rw [hji, hw] at hin
        cases hin
      · rw [Function.update_noteq hji] at hnot
        exact absurd hin hnot
    | acquireFail j hw hl =>
      dsimp only at hnot
      by_cases hji : i = j
      · rw [hji, hw] at hin
        cases hin
      · rw [Function.update_noteq hji] at hnot
        exact absurd hin hnot
    | release j ok' hw =>
      dsimp only at hnot ⊢
      by_cases hji : i = j
      · subst hji
        exact ⟨rfl, by rw [Function.update_same]⟩
      · rw [Function.update_noteq hji] at hnot
        exact absurd hin hnot
  · intro s hs hnone
    cases hlk : s.lock with
    | false => rfl
    | true =>
      obtain ⟨i, ok, hi⟩ := (lockInv_reachable hs).2.2 hlk
      exact absurd hi (hnone i ok)

/-- A two-worker interleaving: worker 0 acquires, worker 1's acquire
fails, worker 0 releases. -/
def lockS1 : LockSystem :=
  { lock := true, workers := Function.update initLockSystem.workers 0 (.inCS true) }

def lockS2 : LockSystem :=
  { lockS1 with workers := Function.update lockS1.workers 1 (.done false) }

def lockS3 : LockSystem :=
  { lock := false, workers := Function.update lockS2.workers 0 (.done true) }

/-- Witness for C9: in the concrete two-worker interleaving, the step
that takes worker 0 out of the critical section deletes the lock and
ends its tick. -/
theorem C9_bundle_lock_mutual_exclusion_witness :
    lockS3.lock = false ∧ lockS3.workers 0 = .done true := by
  have h := C9_bundle_lock_mutual_exclusion
  have hstep : TickStep lockS2 lockS3 :=
    TickStep.release lockS2 0 true
      (by simp [lockS2, lockS1, initLockSystem, Function.update])
  exact h.2.1 lockS2 lockS3 hstep 0 true
    (by simp [lockS2, lockS1, initLockSystem, Function.update])
    (by simp [lockS3, lockS2, lockS1, initLockSystem, Function.update])

end Gaslift
